import Mathlib

/-! Shallow embedding of two utilities of the playwright-api-automation-framework
repository, and proofs of the specification's claims about them:

* the rate-limit retry wrapper `withRateLimit` of `utils/rateLimiter`
  (re-exported in the spec as `withRetry`), and
* the cached schema validator `SchemaValidator.validate` of
  `utils/schemaValidator` (re-exported in the spec as `validate`).

Effects are made explicit: the wrapped asynchronous operation becomes a function
from invocation index to outcome, sleeps become a recorded list of delays, the
validator cache becomes explicit state passing, and thrown errors become
`Except` / explicit outcome constructors. -/

namespace RateLimiter

/-- An HTTP-like response carried by a failure, exactly the part `withRateLimit`
probes: `resp.status()` and the optional `retry-after` header.  The header is
modelled already parsed: `none` when the header is absent (falsy), `some s` when
it is present and `parseInt(retryAfter, 10)` yields `s` seconds. -/
structure Resp where
  status : Nat
  retryAfter : Option Nat
deriving Repr, DecidableEq

/-- A thrown error, possibly carrying an HTTP-like response.  `response = none`
models a throwable without a usable `response` field, i.e. one failing the
source's probe `error instanceof Error && 'response' in error`. -/
structure Err where
  response : Option Resp
deriving Repr, DecidableEq

/-- Outcome of a single invocation of the wrapped operation: the resolved value
or the thrown error. -/
inductive OpResult (T : Type) where
  | ok (t : T)
  | err (e : Err)
deriving Repr, DecidableEq

/-- `RateLimitConfig` after the destructuring defaults have been applied.
`maxRetries` is an `Int` so that the zero and negative loop bounds of the
source's `for` loop can be examined. -/
structure RateLimitConfig where
  maxRetries : Int
  baseDelay : Nat
  maxDelay : Nat
deriving Repr, DecidableEq

/-- The defaults `maxRetries = 3, baseDelay = 1000, maxDelay = 10000` applied
when a caller omits the config. -/
def defaultRateLimitConfig : RateLimitConfig :=
  { maxRetries := 3, baseDelay := 1000, maxDelay := 10000 }

/-- Final outcome of a `withRateLimit` call: the resolved value, a thrown error
(either rethrown at once or the saved `lastError` after the loop), or the
generic `Error('Max retries exceeded')` thrown when `lastError` is null. -/
inductive RetryOutcome (T : Type) where
  | success (t : T)
  | failure (e : Err)
  | maxRetriesExceeded
deriving Repr, DecidableEq

/-- The observable behaviour of one `withRateLimit` call: its final outcome,
how many times the wrapped operation was invoked, and the backoff sleeps
performed, in order, in milliseconds. -/
structure RunResult (T : Type) where
  outcome : RetryOutcome T
  invocations : Nat
  waits : List Nat
deriving Repr, DecidableEq

/-- The backoff delay computed on a 429 at zero-based loop index `attempt`:
`Math.min(retryAfter ? parseInt(retryAfter, 10) * 1000 : baseDelay *
Math.pow(2, attempt), maxDelay)`. -/
def delayFor (cfg : RateLimitConfig) (attempt : Nat) (retryAfter : Option Nat) : Nat :=
  match retryAfter with
  | some s => min (s * 1000) cfg.maxDelay
  | none => min (cfg.baseDelay * 2 ^ attempt) cfg.maxDelay

/-- The `for` loop of `withRateLimit`: `attempt` is the zero-based loop index,
`remaining` the number of iterations left (`maxRetries - attempt`), `waits` the
sleeps performed so far and `lastError` the saved last error.  Each iteration
invokes the operation once; a success returns it, an error carrying a response
with status 429 sleeps the computed delay and continues, any other error is
rethrown at once.  When the loop ends, `lastError` is thrown if present,
otherwise the generic max-retries error. -/
def withRateLimitGo {T : Type} (op : Nat → OpResult T) (cfg : RateLimitConfig) :
    Nat → Nat → List Nat → Option Err → RunResult T
  | attempt, 0, waits, lastError =>
    { outcome := match lastError with
        | some e => RetryOutcome.failure e
        | none => RetryOutcome.maxRetriesExceeded
      invocations := attempt
      waits := waits }
  | attempt, remaining + 1, waits, _ =>
    match op attempt with
    | OpResult.ok t =>
      { outcome := RetryOutcome.success t, invocations := attempt + 1, waits := waits }
    | OpResult.err e =>
      match e.response with
      | some resp =>
        if resp.status = 429 then
          withRateLimitGo op cfg (attempt + 1) remaining
            (waits ++ [delayFor cfg attempt resp.retryAfter]) (some e)
        else
          { outcome := RetryOutcome.failure e, invocations := attempt + 1, waits := waits }
      | none =>
        { outcome := RetryOutcome.failure e, invocations := attempt + 1, waits := waits }

/-- `withRateLimit`: runs the retry loop from attempt 0 with
`Int.toNat maxRetries` iterations (a `for` loop with a non-positive bound runs
zero iterations), no sleeps performed and `lastError = null`.  The wrapped
operation is modelled as a function from invocation index to outcome. -/
def withRateLimit {T : Type} (op : Nat → OpResult T) (cfg : RateLimitConfig) : RunResult T :=
  withRateLimitGo op cfg 0 cfg.maxRetries.toNat [] none

/-- Invocation `j` of `op` fails with error `e j`, which carries response `r j`,
whose status is 429. -/
def fails429 {T : Type} (op : Nat → OpResult T) (e : Nat → Err) (r : Nat → Resp) (j : Nat) : Prop :=
  op j = OpResult.err (e j) ∧ (e j).response = some (r j) ∧ (r j).status = 429

/-- The delay the loop computes for a 429 observed at loop index `i`, as a
function of the index. -/
def delayAt (cfg : RateLimitConfig) (r : Nat → Resp) (i : Nat) : Nat :=
  delayFor cfg i (r i).retryAfter

theorem withRateLimitGo_429_step {T : Type} (op : Nat → OpResult T) (cfg : RateLimitConfig)
    (e : Err) (resp : Resp) (attempt remaining : Nat) (waits : List Nat) (le : Option Err)
    (hop : op attempt = OpResult.err e) (hresp : e.response = some resp)
    (hst : resp.status = 429) :
    withRateLimitGo op cfg attempt (remaining + 1) waits le =
      withRateLimitGo op cfg (attempt + 1) remaining
        (waits ++ [delayFor cfg attempt resp.retryAfter]) (some e) := by
  simp [withRateLimitGo, hop, hresp, hst]

theorem withRateLimitGo_429_steps {T : Type} (op : Nat → OpResult T) (cfg : RateLimitConfig)
    (e : Nat → Err) (r : Nat → Resp) :
    ∀ (n attempt remaining : Nat) (waits : List Nat) (le : Option Err),
      (∀ j, j < n → fails429 op e r (attempt + j)) → n ≤ remaining →
      withRateLimitGo op cfg attempt remaining waits le =
        withRateLimitGo op cfg (attempt + n) (remaining - n)
          (waits ++ (List.range' attempt n).map (delayAt cfg r))
          (if n = 0 then le else some (e (attempt + n - 1))) := by
  intro n
  induction n with
  | zero =>
    intro attempt remaining waits le _ _
    simp [List.range']
  | succ n ih =>
    intro attempt remaining waits le h hle
    obtain ⟨rem', rfl⟩ : ∃ rem', remaining = rem' + 1 := ⟨remaining - 1, by omega⟩
    obtain ⟨hop, hresp, hst⟩ := h 0 (Nat.succ_pos n)
    rw [Nat.add_zero] at hop hresp hst
    rw [withRateLimitGo_429_step op cfg (e attempt) (r attempt) attempt rem' waits le hop hresp hst]
    rw [ih (attempt + 1) rem' (waits ++ [delayFor cfg attempt (r attempt).retryAfter]) (some (e attempt))
      (fun j hj => by
        have hfj := h (j + 1) (by omega)
        rwa [show attempt + 1 + j = attempt + (j + 1) by omega])
      (by omega)]
    have h1 : attempt + 1 + n = attempt + (n + 1) := by omega
    have h2 : rem' - n = rem' + 1 - (n + 1) := by omega
    have h3 : (waits ++ [delayFor cfg attempt (r attempt).retryAfter]) ++
        (List.range' (attempt + 1) n).map (delayAt cfg r) =
        waits ++ (List.range' attempt (n + 1)).map (delayAt cfg r) := by
      rw [List.range'_succ, List.map_cons, List.append_assoc]
      simp [delayAt]
    rw [h1, h2, h3]
    rcases n with _ | n'
    · simp
    · simp only [if_neg (Nat.succ_ne_zero n'), if_neg (Nat.succ_ne_zero (n' + 1))]

theorem withRateLimitGo_waits_extends {T : Type} (op : Nat → OpResult T) (cfg : RateLimitConfig) :
    ∀ (remaining attempt : Nat) (waits : List Nat) (le : Option Err),
      ∃ tail, (withRateLimitGo op cfg attempt remaining waits le).waits = waits ++ tail := by
  intro remaining
  induction remaining with
  | zero =>
    intro attempt waits le
    exact ⟨[], by simp [withRateLimitGo]⟩
  | succ rem ih =>
    intro attempt waits le
    cases hop : op attempt with
    | ok t => exact ⟨[], by simp [withRateLimitGo, hop]⟩
    | err e =>
      cases hresp : e.response with
      | none => exact ⟨[], by simp [withRateLimitGo, hop, hresp]⟩
      | some resp =>
        by_cases hst : resp.status = 429
        · obtain ⟨tail, htail⟩ :=
            ih (attempt + 1) (waits ++ [delayFor cfg attempt resp.retryAfter]) (some e)
          refine ⟨delayFor cfg attempt resp.retryAfter :: tail, ?_⟩
          simp [withRateLimitGo, hop, hresp, hst, htail]
        · exact ⟨[], by simp [withRateLimitGo, hop, hresp, hst]⟩

/-- C1: for every zero-argument operation that fails with a 429-carrying error
on every invocation and every config with maxRetries at least 1,
`withRateLimit` invokes the operation exactly maxRetries times and then
propagates the last observed 429 failure (the error thrown by the final
attempt) to the caller as the outcome; it is never silently swallowed. -/
theorem c1_always429_exhausts_and_propagates_last {T : Type}
    (op : Nat → OpResult T) (cfg : RateLimitConfig) (e : Nat → Err) (r : Nat → Resp)
    (hmr : 1 ≤ cfg.maxRetries) (h : ∀ j, fails429 op e r j) :
    (withRateLimit op cfg).invocations = cfg.maxRetries.toNat ∧
    (withRateLimit op cfg).outcome = RetryOutcome.failure (e (cfg.maxRetries.toNat - 1)) ∧
    op (cfg.maxRetries.toNat - 1) = OpResult.err (e (cfg.maxRetries.toNat - 1)) := by
  have hn : 1 ≤ cfg.maxRetries.toNat := by omega
  unfold withRateLimit
  rw [withRateLimitGo_429_steps op cfg e r cfg.maxRetries.toNat 0 cfg.maxRetries.toNat [] none
    (fun j _ => by simpa using h j) (le_refl _)]
  rw [Nat.sub_self, if_neg (show ¬ cfg.maxRetries.toNat = 0 by omega)]
  refine ⟨?_, ?_, (h _).1⟩ <;> simp [withRateLimitGo]

def c1Err : Err := { response := some { status := 429, retryAfter := some 1 } }

def c1Op : Nat → OpResult Nat := fun _ => OpResult.err c1Err

def c1Cfg : RateLimitConfig := { maxRetries := 2, baseDelay := 1000, maxDelay := 10000 }

/-- Witness for C1: an operation that always fails with a 429 response, under
maxRetries = 2, is invoked exactly twice and the final outcome is the last 429
failure. -/
theorem c1_witness :
    (1 : Int) ≤ c1Cfg.maxRetries ∧
    ((withRateLimit c1Op c1Cfg).invocations = c1Cfg.maxRetries.toNat ∧
     (withRateLimit c1Op c1Cfg).outcome = RetryOutcome.failure c1Err ∧
     c1Op (c1Cfg.maxRetries.toNat - 1) = OpResult.err c1Err) :=
  ⟨by decide, c1_always429_exhausts_and_propagates_last c1Op c1Cfg (fun _ => c1Err)
    (fun _ => { status := 429, retryAfter := some 1 }) (by decide)
    (fun _ => ⟨rfl, rfl, rfl⟩)⟩

/-- C2: for every 429 failure observed at zero-based attempt index i, the sleep
`withRateLimit` performs at position i equals min(hint * 1000, maxDelay) when
the response carries a retry-after hint (the hint wins over exponential growth
at every attempt index), and min(baseDelay * 2 ^ i, maxDelay) when the hint is
absent. -/
theorem c2_delay_formula {T : Type}
    (op : Nat → OpResult T) (cfg : RateLimitConfig) (e : Nat → Err) (r : Nat → Resp)
    (i : Nat) (hi : i < cfg.maxRetries.toNat) (h : ∀ j, j ≤ i → fails429 op e r j) :
    (withRateLimit op cfg).waits[i]? =
      some (match (r i).retryAfter with
        | some s => min (s * 1000) cfg.maxDelay
        | none => min (cfg.baseDelay * 2 ^ i) cfg.maxDelay) := by
  unfold withRateLimit
  rw [withRateLimitGo_429_steps op cfg e r (i + 1) 0 cfg.maxRetries.toNat [] none
    (fun j hj => by simpa using h j (by omega)) (by omega)]
  obtain ⟨tail, htail⟩ := withRateLimitGo_waits_extends op cfg (cfg.maxRetries.toNat - (i + 1))
    (0 + (i + 1)) ([] ++ (List.range' 0 (i + 1)).map (delayAt cfg r))
    (if i + 1 = 0 then none else some (e (0 + (i + 1) - 1)))
  rw [htail, List.nil_append,
    List.getElem?_append_left (by simp [List.length_range'])]
  rw [← List.range_eq_range', List.getElem?_map, List.getElem?_range (Nat.lt_succ_self i)]
  cases hra : (r i).retryAfter <;> simp [delayAt, delayFor, hra]

def c2Err : Err := { response := some { status := 429, retryAfter := none } }

def c2Op : Nat → OpResult Nat := fun _ => OpResult.err c2Err

def c2Cfg : RateLimitConfig := { maxRetries := 2, baseDelay := 1000, maxDelay := 10000 }

/-- Witness for C2: with no retry-after hint, the second recorded sleep (index
1) is the exponential backoff min(1000 * 2 ^ 1, 10000) = 2000. -/
theorem c2_witness :
    1 < c2Cfg.maxRetries.toNat ∧
    (withRateLimit c2Op c2Cfg).waits[1]? = some (min (c2Cfg.baseDelay * 2 ^ 1) c2Cfg.maxDelay) :=
  ⟨by decide, by
    have h := c2_delay_formula c2Op c2Cfg (fun _ => c2Err)
      (fun _ => { status := 429, retryAfter := none }) 1 (by decide)
      (fun _ _ => ⟨rfl, rfl, rfl⟩)
    exact h⟩

/-- C3: for every operation that fails with a 429-carrying error on exactly the
first k invocations (k < maxRetries) and then succeeds, `withRateLimit` returns
the success value, invokes the operation exactly k + 1 times, and the recorded
sleeps are exactly the computed backoff delays, one per retried failure. -/
theorem c3_succeeds_after_k_429s {T : Type}
    (op : Nat → OpResult T) (cfg : RateLimitConfig) (e : Nat → Err) (r : Nat → Resp)
    (k : Nat) (t : T) (hk : k < cfg.maxRetries.toNat)
    (h : ∀ j, j < k → fails429 op e r j) (hs : op k = OpResult.ok t) :
    (withRateLimit op cfg).outcome = RetryOutcome.success t ∧
    (withRateLimit op cfg).invocations = k + 1 ∧
    (withRateLimit op cfg).waits = (List.range k).map (fun j =>
      match (r j).retryAfter with
      | some s => min (s * 1000) cfg.maxDelay
      | none => min (cfg.baseDelay * 2 ^ j) cfg.maxDelay) := by
  unfold withRateLimit
  rw [withRateLimitGo_429_steps op cfg e r k 0 cfg.maxRetries.toNat [] none
    (fun j hj => by simpa using h j hj) (by omega)]
  obtain ⟨rem', hrem⟩ : ∃ rem', cfg.maxRetries.toNat - k = rem' + 1 :=
    ⟨cfg.maxRetries.toNat - k - 1, by omega⟩
  rw [hrem, List.nil_append, Nat.zero_add]
  refine ⟨?_, ?_, ?_⟩ <;>
    simp [withRateLimitGo, hs, ← List.range_eq_range', delayAt, delayFor]

def c3Resp : Resp := { status := 429, retryAfter := some 1 }

def c3Err : Err := { response := some c3Resp }

def c3Op : Nat → OpResult Nat := fun j => if j < 2 then OpResult.err c3Err else OpResult.ok 42

def c3Cfg : RateLimitConfig := { maxRetries := 3, baseDelay := 1000, maxDelay := 10000 }

/-- Witness for C3, the spec's concrete scenario: maxRetries 3, baseDelay 1000,
maxDelay 10000, retry-after hint of 1 second on the first two attempts, success
on the third: two sleeps of 1000 ms each and the success value is returned. -/
theorem c3_witness :
    2 < c3Cfg.maxRetries.toNat ∧ c3Op 2 = OpResult.ok 42 ∧
    ((withRateLimit c3Op c3Cfg).outcome = RetryOutcome.success 42 ∧
     (withRateLimit c3Op c3Cfg).invocations = 3 ∧
     (withRateLimit c3Op c3Cfg).waits = [1000, 1000]) := by
  have h := c3_succeeds_after_k_429s c3Op c3Cfg (fun _ => c3Err) (fun _ => c3Resp) 2 42
    (by decide) (fun j hj => ⟨by simp [c3Op, hj], rfl, rfl⟩) (by decide)
  exact ⟨by decide, by decide, h.1, h.2.1, by rw [h.2.2]; decide⟩

/-- C4: an operation whose first invocation fails with an error that does not
carry a response with status 429 (wrong status, or no response object at all)
propagates that failure after exactly one invocation, with no sleep and no
retry. -/
theorem c4_non429_propagates_immediately {T : Type}
    (op : Nat → OpResult T) (cfg : RateLimitConfig) (e : Err)
    (hmr : 1 ≤ cfg.maxRetries) (h0 : op 0 = OpResult.err e)
    (hnot : ∀ resp, e.response = some resp → resp.status ≠ 429) :
    (withRateLimit op cfg).outcome = RetryOutcome.failure e ∧
    (withRateLimit op cfg).invocations = 1 ∧
    (withRateLimit op cfg).waits = [] := by
  obtain ⟨rem', hrem⟩ : ∃ rem', cfg.maxRetries.toNat = rem' + 1 :=
    ⟨cfg.maxRetries.toNat - 1, by omega⟩
  unfold withRateLimit
  rw [hrem]
  cases hresp : e.response with
  | none => refine ⟨?_, ?_, ?_⟩ <;> simp [withRateLimitGo, h0, hresp]
  | some resp => refine ⟨?_, ?_, ?_⟩ <;> simp [withRateLimitGo, h0, hresp, hnot resp hresp]

def c4Err : Err := { response := some { status := 500, retryAfter := none } }

def c4Op : Nat → OpResult Nat := fun _ => OpResult.err c4Err

def c4Cfg : RateLimitConfig := { maxRetries := 3, baseDelay := 1000, maxDelay := 10000 }

/-- Witness for C4: an error carrying a 500 response propagates after one
invocation with no sleeps. -/
theorem c4_witness :
    (1 : Int) ≤ c4Cfg.maxRetries ∧ c4Op 0 = OpResult.err c4Err ∧
    ((withRateLimit c4Op c4Cfg).outcome = RetryOutcome.failure c4Err ∧
     (withRateLimit c4Op c4Cfg).invocations = 1 ∧
     (withRateLimit c4Op c4Cfg).waits = []) :=
  ⟨by decide, rfl, c4_non429_propagates_immediately c4Op c4Cfg c4Err (by decide) rfl
    (fun resp hresp => by
      simp only [c4Err, Option.some.injEq] at hresp
      subst hresp
      decide)⟩

def c5Resp : Resp := { status := 429, retryAfter := none }

def c5Err : Err := { response := some c5Resp }

def c5Op : Nat → OpResult Nat := fun _ => OpResult.err c5Err

def c5Cfg : RateLimitConfig := { maxRetries := 2, baseDelay := 1000, maxDelay := 10000 }

/-- C5 counterexample: a failure whose carried response has status 429 but no
retry-after header is retried anyway, contradicting the claim that absence of
the header makes the failure propagate without any retry.  With maxRetries = 2
the operation is invoked twice (not once) and two exponential-backoff sleeps
are performed (not zero). -/
theorem c5_counterexample :
    (withRateLimit c5Op c5Cfg).invocations = 2 ∧
    (withRateLimit c5Op c5Cfg).invocations ≠ 1 ∧
    (withRateLimit c5Op c5Cfg).waits = [1000, 2000] := by decide

/-- C5 amended: for every failure observed by `withRateLimit`, absence of the
response object entirely is treated as not rate-limited and not retryable: the
failure propagates to the caller with no further invocation and no further
sleep.  (Absence of only the retry-after header on a 429-carrying response does
not prevent the retry; it merely selects exponential backoff.) -/
theorem c5_amended_missing_response_not_retried {T : Type}
    (op : Nat → OpResult T) (cfg : RateLimitConfig) (e : Nat → Err) (r : Nat → Resp)
    (j : Nat) (ej : Err) (hj : j < cfg.maxRetries.toNat)
    (h : ∀ i, i < j → fails429 op e r i)
    (hje : op j = OpResult.err ej) (hr : ej.response = none) :
    (withRateLimit op cfg).outcome = RetryOutcome.failure ej ∧
    (withRateLimit op cfg).invocations = j + 1 ∧
    (withRateLimit op cfg).waits.length = j := by
  unfold withRateLimit
  rw [withRateLimitGo_429_steps op cfg e r j 0 cfg.maxRetries.toNat [] none
    (fun i hi => by simpa using h i hi) (by omega)]
  obtain ⟨rem', hrem⟩ : ∃ rem', cfg.maxRetries.toNat - j = rem' + 1 :=
    ⟨cfg.maxRetries.toNat - j - 1, by omega⟩
  rw [hrem, List.nil_append, Nat.zero_add]
  refine ⟨?_, ?_, ?_⟩ <;> simp [withRateLimitGo, hje, hr, List.length_range']

def c5aErr : Err := { response := none }

def c5aOp : Nat → OpResult Nat := fun _ => OpResult.err c5aErr

def c5aCfg : RateLimitConfig := { maxRetries := 1, baseDelay := 1000, maxDelay := 10000 }

/-- Witness for the amended C5: an error carrying no response object at all
propagates after a single invocation with no sleeps. -/
theorem c5_amended_witness :
    0 < c5aCfg.maxRetries.toNat ∧ c5aOp 0 = OpResult.err c5aErr ∧
    ((withRateLimit c5aOp c5aCfg).outcome = RetryOutcome.failure c5aErr ∧
     (withRateLimit c5aOp c5aCfg).invocations = 1 ∧
     (withRateLimit c5aOp c5aCfg).waits.length = 0) :=
  ⟨by decide, rfl, c5_amended_missing_response_not_retried c5aOp c5aCfg (fun _ => c5aErr)
    (fun _ => { status := 429, retryAfter := none }) 0 c5aErr (by decide)
    (fun i hi => absurd hi (Nat.not_lt_zero i)) rfl rfl⟩

/-- C10: when maxRetries is zero or negative the loop body never runs: the
wrapped operation is never invoked, no sleeps happen, and the call fails with
the generic max-retries-exceeded error rather than any outcome of the
operation. -/
theorem c10_nonpositive_maxRetries_skips_operation {T : Type}
    (op : Nat → OpResult T) (cfg : RateLimitConfig) (h : cfg.maxRetries ≤ 0) :
    withRateLimit op cfg =
      { outcome := RetryOutcome.maxRetriesExceeded, invocations := 0, waits := [] } := by
  have h0 : cfg.maxRetries.toNat = 0 := by omega
  simp [withRateLimit, h0, withRateLimitGo]

def c10Op : Nat → OpResult Nat := fun _ => OpResult.ok 7

def c10Cfg : RateLimitConfig := { maxRetries := 0, baseDelay := 1000, maxDelay := 10000 }

/-- Witness for C10: with maxRetries = 0 an always-succeeding operation is
never invoked and the generic max-retries-exceeded error is the outcome. -/
theorem c10_witness :
    c10Cfg.maxRetries ≤ 0 ∧
    withRateLimit c10Op c10Cfg =
      { outcome := RetryOutcome.maxRetriesExceeded, invocations := 0, waits := [] } :=
  ⟨by decide, c10_nonpositive_maxRetries_skips_operation c10Op c10Cfg (by decide)⟩

end RateLimiter

namespace SchemaValidatorModel

/-- A JSON value.  Numbers are restricted to integers, which covers every
payload the repository's schemas and the specification's scenarios use. -/
inductive JsonVal where
  | null
  | bool (b : Bool)
  | num (n : Int)
  | str (s : String)
  | obj (fields : List (String × JsonVal))

/-- The JSON-Schema property types appearing in the repository's schemas:
`integer`, `string` with an optional `format`, and `other`, an unrecognized
type keyword that makes the schema malformed. -/
inductive SchemaTy where
  | integer
  | string (format : Option String)
  | other (t : String)
deriving Repr, DecidableEq

/-- A schema: an object schema with `required` names and typed `properties`
(the shape of every schema in the repository's fixtures and in the
specification's scenarios). -/
structure Schema where
  required : List String
  properties : List (String × SchemaTy)
deriving Repr, DecidableEq

/-- Serialization of a property type as `JSON.stringify` renders it. -/
def stringifyTy : SchemaTy → String
  | SchemaTy.integer => "\x7b\"type\":\"integer\"\x7d"
  | SchemaTy.string none => "\x7b\"type\":\"string\"\x7d"
  | SchemaTy.string (some f) => "\x7b\"type\":\"string\",\"format\":\"" ++ f ++ "\"\x7d"
  | SchemaTy.other t => "\x7b\"type\":\"" ++ t ++ "\"\x7d"

/-- Comma-separated serialization of the `properties` map. -/
def stringifyProps : List (String × SchemaTy) → String
  | [] => ""
  | [(k, ty)] => "\"" ++ k ++ "\":" ++ stringifyTy ty
  | (k, ty) :: rest => "\"" ++ k ++ "\":" ++ stringifyTy ty ++ "," ++ stringifyProps rest

/-- Comma-separated serialization of the `required` list. -/
def stringifyReq : List String → String
  | [] => ""
  | [k] => "\"" ++ k ++ "\""
  | k :: rest => "\"" ++ k ++ "\"," ++ stringifyReq rest

/-- The cache key `JSON.stringify(schema)`: a deterministic canonical
serialization of the schema value. -/
def stringify (s : Schema) : String :=
  "\x7b\"type\":\"object\",\"required\":[" ++ stringifyReq s.required ++
    "],\"properties\":\x7b" ++ stringifyProps s.properties ++ "\x7d\x7d"

/-- An Ajv validation error object, restricted to the two fields the
repository's error formatting reads: `instancePath` and `message`. -/
structure AjvError where
  instancePath : String
  message : String
deriving Repr, DecidableEq

/-- `SchemaValidationOptions` as accepted by `SchemaValidator.getInstance`;
`none` models an omitted field.  `removeAdditional` is restricted to its
boolean form, the only one the repository's call sites could use (they pass no
options at all). -/
structure SchemaValidationOptions where
  strict : Option Bool := none
  coerceTypes : Option Bool := none
  removeAdditional : Option Bool := none

/-- Modelled from the spec: the `email` format check contributed by
`ajv-formats` (a library outside the repository).  A string passes when a
single `@` separates a nonempty local part from a domain that contains a
dot. -/
def isEmailFormat (s : String) : Bool :=
  let cs := s.toList
  let lpart := cs.takeWhile (fun c => c != '@')
  match cs.dropWhile (fun c => c != '@') with
  | '@' :: domain =>
    lpart.length > 0 && domain.length > 0 && domain.contains '.' && !domain.contains '@'
  | _ => false

/-- Decimal digits to a number, `none` on a non-digit or on emptiness. -/
def digitsToNatAux : List Char → Nat → Option Nat
  | [], acc => some acc
  | c :: rest, acc =>
    if c.isDigit then digitsToNatAux rest (acc * 10 + (c.toNat - 48)) else none

/-- Decimal digit list to a number, `none` when empty or not all digits. -/
def digitsToNat : List Char → Option Nat
  | [] => none
  | cs => digitsToNatAux cs 0

/-- Modelled from the spec: Ajv `coerceTypes` string-to-integer coercion: a
string coerces exactly when it is a decimal integer numeral, optionally signed. -/
def coerceStringToInt (s : String) : Option Int :=
  match s.toList with
  | '-' :: rest => (digitsToNat rest).map (fun n => -(n : Int))
  | cs => (digitsToNat cs).map Int.ofNat

/-- Modelled from the spec: Ajv checking one property value against its
declared type, with optional type coercion; returns the possibly-coerced value
together with the violations found, whose `instancePath` is a slash followed by
the property name.  The `other` case is unreachable: compilation rejects such
schemas first. -/
def checkProp (coerce : Bool) (name : String) (ty : SchemaTy) (v : JsonVal) :
    JsonVal × List AjvError :=
  match ty with
  | SchemaTy.integer =>
    match v with
    | JsonVal.num n => (JsonVal.num n, [])
    | JsonVal.str s =>
      if coerce then
        match coerceStringToInt s with
        | some n => (JsonVal.num n, [])
        | none => (v, [⟨"/" ++ name, "must be integer"⟩])
      else (v, [⟨"/" ++ name, "must be integer"⟩])
    | _ => (v, [⟨"/" ++ name, "must be integer"⟩])
  | SchemaTy.string fmt =>
    match v with
    | JsonVal.str s =>
      match fmt with
      | some "email" =>
        if isEmailFormat s then (v, [])
        else (v, [⟨"/" ++ name, "must match format \"email\""⟩])
      | _ => (v, [])
    | JsonVal.num n =>
      if coerce then
        match fmt with
        | some "email" =>
          if isEmailFormat (toString n) then (JsonVal.str (toString n), [])
          else (JsonVal.str (toString n), [⟨"/" ++ name, "must match format \"email\""⟩])
        | _ => (JsonVal.str (toString n), [])
      else (v, [⟨"/" ++ name, "must be string"⟩])
    | _ => (v, [⟨"/" ++ name, "must be string"⟩])
  | SchemaTy.other _ => (v, [])

/-- Modelled from the spec: Ajv walking the payload's fields in order, checking
each field that has a declared property type and keeping unknown fields
untouched (`removeAdditional` is false); every violation is collected. -/
def checkFields (coerce : Bool) (props : List (String × SchemaTy)) :
    List (String × JsonVal) → List (String × JsonVal) × List AjvError
  | [] => ([], [])
  | (k, v) :: rest =>
    let restRes := checkFields coerce props rest
    match props.find? (fun kv => kv.1 == k) with
    | some kty =>
      let res := checkProp coerce k kty.2 v
      ((k, res.1) :: restRes.1, res.2 ++ restRes.2)
    | none => ((k, v) :: restRes.1, restRes.2)

/-- Modelled from the spec: running a compiled Ajv validator (with
`allErrors: true`, as the `SchemaValidator` constructor fixes) against a
payload: the payload must be an object, every `required` name must be present,
and every declared property that is present is checked; all violations are
collected rather than stopping at the first.  Returns the possibly-coerced
payload and the violation list (empty exactly when the payload is valid).
Quote characters around the property name in the required-property message are
elided. -/
def runValidator (coerce : Bool) (s : Schema) (p : JsonVal) : JsonVal × List AjvError :=
  match p with
  | JsonVal.obj fields =>
    let reqErrs := (s.required.filter fun k =>
        (fields.find? fun kv => kv.1 == k).isNone).map
      fun k => AjvError.mk "" ("must have required property " ++ k)
    let fieldsRes := checkFields coerce s.properties fields
    (JsonVal.obj fieldsRes.1, reqErrs ++ fieldsRes.2)
  | _ => (p, [AjvError.mk "" "must be object"])

/-- Modelled from the spec: `Ajv.compile` throws on a malformed schema — here,
one declaring a property with an unrecognized type keyword.  Returns the thrown
message, or `none` when the schema compiles. -/
def schemaCompileError? (s : Schema) : Option String :=
  if s.properties.any (fun kv =>
      match kv.2 with
      | SchemaTy.other _ => true
      | _ => false)
  then some "schema is invalid" else none

/-- A compiled `ValidateFunction`.  `vid` records the value of the compilation
counter at creation: two compiled validators are the same JavaScript object
exactly when their `vid`s are equal, since compilation is the only way such an
object comes into existence. -/
structure ValidateFunction where
  vid : Nat
  schema : Schema
deriving Repr, DecidableEq

/-- The state of the `SchemaValidator` singleton: the Ajv options fixed by the
private constructor, the `validators` cache map (association list, most recent
insertion first, looked up by string key as `Map.get` and `Map.set`), and a
count of `ajv.compile` calls, used to model object identity of compiled
validators and to observe how often compilation ran. -/
structure SchemaValidatorState where
  allErrors : Bool
  strict : Bool
  coerceTypes : Bool
  removeAdditional : Bool
  validators : List (String × ValidateFunction)
  compileCount : Nat
deriving Repr, DecidableEq

/-- The `SchemaValidator` private constructor: fixes `allErrors := true` and
applies the source's `??` defaults to the remaining options; the cache starts
empty. -/
def mkSchemaValidator (options : Option SchemaValidationOptions) : SchemaValidatorState :=
  { allErrors := true
    strict := ((options.bind fun o => o.strict).getD false)
    coerceTypes := ((options.bind fun o => o.coerceTypes).getD true)
    removeAdditional := ((options.bind fun o => o.removeAdditional).getD false)
    validators := []
    compileCount := 0 }

/-- `ValidationResult<T>`: the `valid` flag, the optional (possibly coerced)
`data`, and the optional `errors` message list. -/
structure ValidationResult where
  valid : Bool
  data : Option JsonVal := none
  errors : Option (List String) := none

/-- Lines 79-85 of `SchemaValidator.validate`: compute the cache key
`JSON.stringify(schema)`, reuse the cached compiled validator when present,
otherwise compile one and insert it under the key.  A compile failure
propagates as `Except.error`: the repository code does not catch it. -/
def getOrCompile (st : SchemaValidatorState) (schema : Schema) :
    Except String (ValidateFunction × SchemaValidatorState) :=
  let schemaKey := stringify schema
  match st.validators.find? (fun kv => kv.1 == schemaKey) with
  | some kv => Except.ok (kv.2, st)
  | none =>
    match schemaCompileError? schema with
    | some msg => Except.error msg
    | none =>
      let v : ValidateFunction := ⟨st.compileCount, schema⟩
      Except.ok (v, { st with
        validators := (schemaKey, v) :: st.validators
        compileCount := st.compileCount + 1 })

/-- The result shaping of `SchemaValidator.validate`: on success `valid: true`
with the (possibly coerced) payload as `data`; on failure `valid: false` with
`(validate.errors || []).map(e => ...)`, each error rendered as its
`instancePath` (or a slash when that is empty), a space, and its message. -/
def runToResult (coerce : Bool) (v : ValidateFunction) (payload : JsonVal) : ValidationResult :=
  let res := runValidator coerce v.schema payload
  if res.2.isEmpty then { valid := true, data := some res.1 }
  else { valid := false,
         errors := some (res.2.map fun e =>
           (if e.instancePath = "" then "/" else e.instancePath) ++ " " ++ e.message) }

/-- `SchemaValidator.validate`: look up or compile the validator for the
schema's serialization, run it against the payload, and shape the result. -/
def validate (st : SchemaValidatorState) (schema : Schema) (payload : JsonVal) :
    Except String (ValidationResult × SchemaValidatorState) :=
  match getOrCompile st schema with
  | Except.error msg => Except.error msg
  | Except.ok vst => Except.ok (runToResult vst.2.coerceTypes vst.1 payload, vst.2)

theorem getOrCompile_stable (st : SchemaValidatorState) (s1 s2 : Schema)
    (v1 : ValidateFunction) (st1 : SchemaValidatorState)
    (hkey : stringify s1 = stringify s2)
    (h1 : getOrCompile st s1 = Except.ok (v1, st1)) :
    getOrCompile st1 s2 = Except.ok (v1, st1) ∧
    st1.compileCount ≤ st.compileCount + 1 ∧
    st1.coerceTypes = st.coerceTypes := by
  cases hf : st.validators.find? (fun kv => kv.1 == stringify s1) with
  | some kv =>
    simp only [getOrCompile, hf, Except.ok.injEq, Prod.mk.injEq] at h1
    obtain ⟨hv, hst⟩ := h1
    subst hst
    refine ⟨?_, Nat.le_succ _, rfl⟩
    simp only [getOrCompile, ← hkey, hf, hv]
  | none =>
    cases hce : schemaCompileError? s1 with
    | some msg => simp [getOrCompile, hf, hce] at h1
    | none =>
      simp only [getOrCompile, hf, hce, Except.ok.injEq, Prod.mk.injEq] at h1
      obtain ⟨hv, hst⟩ := h1
      subst hst
      refine ⟨?_, Nat.le_refl _, rfl⟩
      simp only [getOrCompile, ← hkey]
      simp [List.find?, hv]

/-- C6: two validate calls whose schemas share one canonical serialization use
one compiled validator: after the first call's get-or-compile step (which
compiles at most once), the second call's get-or-compile step returns the very
same compiled validator object with the cache state untouched, and the full
second `validate` call runs that validator and leaves the state unchanged —
compilation is skipped. -/
theorem c6_cache_returns_same_validator
    (st : SchemaValidatorState) (s1 s2 : Schema) (p2 : JsonVal)
    (v1 : ValidateFunction) (st1 : SchemaValidatorState)
    (hkey : stringify s1 = stringify s2)
    (h1 : getOrCompile st s1 = Except.ok (v1, st1)) :
    getOrCompile st1 s2 = Except.ok (v1, st1) ∧
    st1.compileCount ≤ st.compileCount + 1 ∧
    validate st1 s2 p2 = Except.ok (runToResult st1.coerceTypes v1 p2, st1) := by
  obtain ⟨hg, hc, _⟩ := getOrCompile_stable st s1 s2 v1 st1 hkey h1
  exact ⟨hg, hc, by simp [validate, hg]⟩

def c6Schema : Schema := { required := ["id"], properties := [("id", SchemaTy.integer)] }

def c6State0 : SchemaValidatorState := mkSchemaValidator none

def c6V : ValidateFunction := { vid := 0, schema := c6Schema }

def c6State1 : SchemaValidatorState :=
  { c6State0 with validators := [(stringify c6Schema, c6V)], compileCount := 1 }

def c6Payload : JsonVal := JsonVal.obj [("id", JsonVal.num 5)]

/-- Witness for C6: compiling a schema into a fresh cache and validating again
with the same schema reuses the compiled validator and changes nothing. -/
theorem c6_witness :
    stringify c6Schema = stringify c6Schema ∧
    getOrCompile c6State0 c6Schema = Except.ok (c6V, c6State1) ∧
    (getOrCompile c6State1 c6Schema = Except.ok (c6V, c6State1) ∧
     c6State1.compileCount ≤ c6State0.compileCount + 1 ∧
     validate c6State1 c6Schema c6Payload =
       Except.ok (runToResult c6State1.coerceTypes c6V c6Payload, c6State1)) :=
  ⟨rfl, rfl,
    c6_cache_returns_same_validator c6State0 c6Schema c6Schema c6Payload c6V c6State1 rfl rfl⟩

/-- C7: for a malformed schema whose key is not in the cache, `validate` fails
fast: the compile error propagates to the caller as a thrown error, and no
`Invalid` result is returned. -/
theorem c7_malformed_schema_fails_fast
    (st : SchemaValidatorState) (s : Schema) (p : JsonVal) (msg : String)
    (hmal : schemaCompileError? s = some msg)
    (hmiss : st.validators.find? (fun kv => kv.1 == stringify s) = none) :
    validate st s p = Except.error msg := by
  simp [validate, getOrCompile, hmiss, hmal]

def c7Schema : Schema := { required := [], properties := [("id", SchemaTy.other "integre")] }

/-- Witness for C7: a schema with an unrecognized type keyword makes `validate`
on a fresh cache throw the compile error. -/
theorem c7_witness :
    schemaCompileError? c7Schema = some "schema is invalid" ∧
    (mkSchemaValidator none).validators.find? (fun kv => kv.1 == stringify c7Schema) = none ∧
    validate (mkSchemaValidator none) c7Schema JsonVal.null = Except.error "schema is invalid" :=
  ⟨rfl, rfl, c7_malformed_schema_fails_fast (mkSchemaValidator none) c7Schema JsonVal.null
    "schema is invalid" rfl rfl⟩

/-- C8: for all schemas and payloads, calling validate twice in succession
yields identical ValidationResult values (same valid flag, same data, same
error list), and the second call does not change the cache state. -/
theorem c8_validate_idempotent
    (st : SchemaValidatorState) (s : Schema) (p : JsonVal)
    (r1 r2 : ValidationResult) (st1 st2 : SchemaValidatorState)
    (h1 : validate st s p = Except.ok (r1, st1))
    (h2 : validate st1 s p = Except.ok (r2, st2)) :
    r1 = r2 ∧ st2 = st1 := by
  cases hg : getOrCompile st s with
  | error msg => simp [validate, hg] at h1
  | ok vst =>
    simp only [validate, hg, Except.ok.injEq, Prod.mk.injEq] at h1
    obtain ⟨hr1, hst1⟩ := h1
    have hgs := (getOrCompile_stable st s s vst.1 vst.2 rfl (by rw [hg])).1
    rw [hst1] at hgs
    simp only [validate, hgs, Except.ok.injEq, Prod.mk.injEq] at h2
    obtain ⟨hr2, hst2⟩ := h2
    rw [← hr1, ← hr2, ← hst1, hst1]
    exact ⟨rfl, hst2.symm⟩

def c8Schema : Schema := { required := ["id"], properties := [("id", SchemaTy.integer)] }

def c8State0 : SchemaValidatorState := mkSchemaValidator none

def c8V : ValidateFunction := { vid := 0, schema := c8Schema }

def c8State1 : SchemaValidatorState :=
  { c8State0 with validators := [(stringify c8Schema, c8V)], compileCount := 1 }

def c8Payload : JsonVal := JsonVal.obj [("id", JsonVal.num 1)]

def c8Result : ValidationResult :=
  { valid := true, data := some (JsonVal.obj [("id", JsonVal.num 1)]) }

/-- Witness for C8: validating the same payload twice against the same schema
from a fresh cache returns the same result both times. -/
theorem c8_witness :
    validate c8State0 c8Schema c8Payload = Except.ok (c8Result, c8State1) ∧
    validate c8State1 c8Schema c8Payload = Except.ok (c8Result, c8State1) ∧
    (c8Result = c8Result ∧ c8State1 = c8State1) :=
  ⟨rfl, rfl, c8_validate_idempotent c8State0 c8Schema c8Payload c8Result c8Result
    c8State1 c8State1 rfl rfl⟩

def specSchema : Schema :=
  { required := ["id", "email"],
    properties := [("id", SchemaTy.integer), ("email", SchemaTy.string (some "email"))] }

def freshValidator : SchemaValidatorState := mkSchemaValidator none

def badEmailPayload : JsonVal :=
  JsonVal.obj [("id", JsonVal.str "2"), ("email", JsonVal.str "bad")]

def twoViolationsPayload : JsonVal :=
  JsonVal.obj [("id", JsonVal.str "x"), ("email", JsonVal.str "bad")]

/-- C9: whenever validate returns an Invalid result, its errors field holds one
human-readable string per collected violation, each formatted as the
violation's instance path (or a slash when that path is empty) followed by a
space and the message, all violations collected; in particular the spec's
scenario — payload with id "2" and email "bad" against the id-integer plus
email-format schema, with type coercion on — yields Invalid with exactly the
message slash-email must match format "email" (id is coerced), and a payload
violating two constraints yields both messages rather than stopping at the
first. -/
theorem c9_invalid_formatting
    (st : SchemaValidatorState) (s : Schema) (p : JsonVal)
    (r : ValidationResult) (st' : SchemaValidatorState)
    (h : validate st s p = Except.ok (r, st')) (hinv : r.valid = false) :
    (∃ vs : List AjvError, vs ≠ [] ∧
      r.errors = some (vs.map fun e =>
        (if e.instancePath = "" then "/" else e.instancePath) ++ " " ++ e.message)) ∧
    (validate freshValidator specSchema badEmailPayload).toOption.map Prod.fst =
      some { valid := false, errors := some ["/email must match format \"email\""] } ∧
    (validate freshValidator specSchema twoViolationsPayload).toOption.map Prod.fst =
      some { valid := false,
             errors := some ["/id must be integer", "/email must match format \"email\""] } := by
  refine ⟨?_, rfl, rfl⟩
  cases hg : getOrCompile st s with
  | error msg => simp [validate, hg] at h
  | ok vst =>
    simp only [validate, hg, Except.ok.injEq, Prod.mk.injEq] at h
    obtain ⟨hr, _⟩ := h
    subst hr
    unfold runToResult at hinv ⊢
    by_cases he : (runValidator vst.2.coerceTypes vst.1.schema p).2.isEmpty
    · simp [he] at hinv
    · refine ⟨(runValidator vst.2.coerceTypes vst.1.schema p).2, ?_, ?_⟩
      · intro hnil
        simp [hnil] at he
      · simp [he]

def c9State1 : SchemaValidatorState :=
  { freshValidator with
    validators := [(stringify specSchema, ⟨0, specSchema⟩)], compileCount := 1 }

def c9Result : ValidationResult :=
  { valid := false, errors := some ["/email must match format \"email\""] }

/-- Witness for C9: the spec's concrete Invalid scenario instantiates the
formatting theorem. -/
theorem c9_witness :
    validate freshValidator specSchema badEmailPayload = Except.ok (c9Result, c9State1) ∧
    c9Result.valid = false ∧
    ((∃ vs : List AjvError, vs ≠ [] ∧
      c9Result.errors = some (vs.map fun e =>
        (if e.instancePath = "" then "/" else e.instancePath) ++ " " ++ e.message)) ∧
     (validate freshValidator specSchema badEmailPayload).toOption.map Prod.fst =
       some { valid := false, errors := some ["/email must match format \"email\""] } ∧
     (validate freshValidator specSchema twoViolationsPayload).toOption.map Prod.fst =
       some { valid := false,
              errors := some ["/id must be integer", "/email must match format \"email\""] }) :=
  ⟨rfl, rfl, c9_invalid_formatting freshValidator specSchema badEmailPayload
    c9Result c9State1 rfl rfl⟩

end SchemaValidatorModel
